import Mathlib

/-!
# PictorusDemo: the JNI boundary of the prebuilt simulation core

A shallow embedding of

* `app/src/main/cpp/pictorus.h` and `app/src/main/cpp/pictorus_crashmodel.h`
  (the record declarations), and
* `app/src/main/cpp/example_app.c` (the three JNI entry points),

followed by the properties of the boundary.

Conventions.

* A `double` is carried as its IEEE-754 binary64 bit pattern, a number below
  `2 ^ 64`.  The boundary only copies doubles and zero-fills them, so no
  floating-point arithmetic is involved; `0.0` is the all-zero pattern.
* A struct declaration is the list of its member declarations, in source
  order.  A struct value is the list of its member values in the same order.
* The entry points use the struct types of the header named by
  `#include "pictorus.h"`; they are defined here for an arbitrary header, so
  that the header of the repository can be examined next to any other.
* The core (`app_interface_new`, `app_interface_free`,
  `app_interface_update`) is only declared in the headers.  Its per-engine
  behaviour is a parameter; the engines it owns are a map from address to
  engine state.
-/

namespace PictorusDemo

/-! ## Header declarations -/

/-- The C types that occur in member declarations of the two headers. -/
inductive CType where
  | double
  | int
  | pointer
  deriving DecidableEq, Repr

/-- One member declaration of a struct: `double Voltage;`. -/
structure Member where
  type : CType
  name : String
  deriving DecidableEq, Repr

/-- A `typedef struct Name { ... } Name;` declaration. -/
structure StructDecl where
  name : String
  members : List Member
  deriving DecidableEq, Repr

/-- The member names of a struct declaration, in source order. -/
def StructDecl.memberNames (d : StructDecl) : List String :=
  d.members.map Member.name

/-- The record declarations of one header file. -/
structure Header where
  AppDataOutput : StructDecl
  AppDataInput : StructDecl
  deriving DecidableEq, Repr

/-- `pictorus.h`, lines 3-31: `typedef struct AppDataOutput`. -/
def pictorus_AppDataOutput : StructDecl where
  name := "AppDataOutput"
  members :=
    [ ⟨.double, "CurrentMaxSpeed"⟩,
      ⟨.double, "CurrentAvgSpeed"⟩,
      ⟨.double, "Current_distancetravelledraw"⟩,
      ⟨.double, "Current_Mintime0to60kmph"⟩,
      ⟨.double, "Current_RideDuration"⟩,
      ⟨.double, "CO2cons_current"⟩,
      ⟨.double, "Current_EnergykWhr"⟩,
      ⟨.double, "Current_RideEffWhkm"⟩,
      ⟨.double, "Amperehour_Calc"⟩,
      ⟨.double, "FallDetect_Stationary"⟩,
      ⟨.double, "FallDetect_Motion"⟩,
      ⟨.double, "gForce"⟩,
      ⟨.double, "LeanAngle"⟩,
      ⟨.double, "Leftguageeff"⟩,
      ⟨.double, "power"⟩,
      ⟨.double, "Range"⟩,
      ⟨.double, "CTFullcharge"⟩,
      ⟨.double, "FullchargeECORange"⟩,
      ⟨.double, "CT25percharge"⟩,
      ⟨.double, "CT50percharge"⟩,
      ⟨.double, "CT75percharge"⟩,
      ⟨.double, "EcoRange25percharge"⟩,
      ⟨.double, "EcoRange50percharge"⟩,
      ⟨.double, "EcoRange75percharge"⟩,
      ⟨.double, "SuggestedGear"⟩,
      ⟨.double, "RIndiflag"⟩,
      ⟨.double, "pitchangle"⟩ ]

/-- `pictorus.h`, lines 33-53: `typedef struct AppDataInput`. -/
def pictorus_AppDataInput : StructDecl where
  name := "AppDataInput"
  members :=
    [ ⟨.double, "Voltage"⟩,
      ⟨.double, "Current"⟩,
      ⟨.double, "Speed"⟩,
      ⟨.double, "VehicleMode"⟩,
      ⟨.double, "SOC"⟩,
      ⟨.double, "BMSRemCap"⟩,
      ⟨.double, "Subridemodes"⟩,
      ⟨.double, "RPM"⟩,
      ⟨.double, "CurrentGear"⟩,
      ⟨.double, "ClutchStatus"⟩,
      ⟨.double, "Torque"⟩,
      ⟨.double, "DeAcc"⟩,
      ⟨.double, "Ax"⟩,
      ⟨.double, "Ay"⟩,
      ⟨.double, "Az"⟩,
      ⟨.double, "motorswitchstatus"⟩,
      ⟨.double, "VICFlag"⟩,
      ⟨.double, "Vacationmodeoff"⟩,
      ⟨.double, "RightIndicator"⟩ ]

/-- The header `pictorus.h`. -/
def pictorus_h : Header where
  AppDataOutput := pictorus_AppDataOutput
  AppDataInput := pictorus_AppDataInput

/-- `pictorus_crashmodel.h`, lines 3-8: `typedef struct AppDataInput`. -/
def crashmodel_AppDataInput : StructDecl where
  name := "AppDataInput"
  members :=
    [ ⟨.double, "Speed"⟩,
      ⟨.double, "Curr"⟩,
      ⟨.double, "Ay"⟩,
      ⟨.double, "EntropyDiff"⟩ ]

/-- `pictorus_crashmodel.h`, lines 11-13: `typedef struct AppDataOutput`. -/
def crashmodel_AppDataOutput : StructDecl where
  name := "AppDataOutput"
  members := [ ⟨.double, "CrashFlag"⟩ ]

/-- The header `pictorus_crashmodel.h`. -/
def pictorus_crashmodel_h : Header where
  AppDataOutput := crashmodel_AppDataOutput
  AppDataInput := crashmodel_AppDataInput

/-- The telemetry input field names as the specification lists them:
electrical, mechanical, motion, then mode and flag fields. -/
def specTelemetryInputNames : List String :=
  [ "Voltage", "Current", "SOC", "BMSRemCap",
    "Speed", "RPM", "Torque", "CurrentGear", "ClutchStatus", "DeAcc",
    "Ax", "Ay", "Az",
    "VehicleMode", "Subridemodes", "motorswitchstatus", "VICFlag",
    "Vacationmodeoff", "RightIndicator" ]

/-- The telemetry output fields the specification singles out, under the names
the header gives them: the two speeds, distance travelled, the 0-to-60 time,
the range fields at full, 25, 50 and 75 percent charge (raw and eco), the two
fall-detection flags, g-force, lean angle, pitch angle and suggested gear. -/
def specTelemetryOutputNames : List String :=
  [ "CurrentMaxSpeed", "CurrentAvgSpeed",
    "Current_distancetravelledraw", "Current_Mintime0to60kmph",
    "CTFullcharge", "CT25percharge", "CT50percharge", "CT75percharge",
    "FullchargeECORange", "EcoRange25percharge", "EcoRange50percharge",
    "EcoRange75percharge",
    "FallDetect_Stationary", "FallDetect_Motion",
    "gForce", "LeanAngle", "pitchangle", "SuggestedGear" ]

/-! ## Values that cross the boundary -/

/-- A C `double` (JNI `jdouble`), as its IEEE-754 binary64 bit pattern.
`0` is `+0.0`. -/
abbrev jdouble : Type := Fin (2 ^ 64)

/-- A value of a struct type all of whose members are `double`: the member
values in declaration order. -/
structure StructVal (d : StructDecl) where
  vals : List jdouble
  size : vals.length = d.members.length

/-- The pointer width of the Android ABI the library is built for:
`armeabi-v7a` and `x86` are ILP32, `arm64-v8a` and `x86_64` are LP64. -/
inductive Abi where
  | ilp32
  | lp64
  deriving DecidableEq, Repr

/-- Width of a data pointer in bits. -/
def Abi.ptrBits : Abi → Nat
  | .ilp32 => 32
  | .lp64 => 64

/-- A compilation target: the ABI, and whether a pointer converted to a wider
integer is sign-extended (GCC) or zero-extended (Clang). -/
structure Target where
  abi : Abi
  signExtend : Bool
  deriving DecidableEq, Repr

/-- A `struct AppInterface *`: an address of the target. -/
abbrev Ptr (t : Target) : Type := Fin (2 ^ t.abi.ptrBits)

/-- A JNI `jlong`: a signed 64-bit integer, as its value. -/
abbrev jlong : Type := Int

/-- The signed 64-bit value of a bit pattern. -/
def wrapJlong (n : Nat) : jlong :=
  if n % 2 ^ 64 < 2 ^ 63 then ((n % 2 ^ 64 : Nat) : Int)
  else ((n % 2 ^ 64 : Nat) : Int) - 2 ^ 64

/-- The cast `(jlong)p` of `appInterfaceNew`: the pointer is widened to 64
bits, by sign or zero extension, and read as a signed integer. -/
def ptrToJlong (t : Target) (p : Ptr t) : jlong :=
  if t.signExtend && decide (2 ^ (t.abi.ptrBits - 1) ≤ p.val) then
    wrapJlong (p.val + (2 ^ 64 - 2 ^ t.abi.ptrBits))
  else
    wrapJlong p.val

/-- The cast `(struct AppInterface*)handle` of `appInterfaceFree` and
`appInterfaceUpdate`: the low pointer-width bits of the integer. -/
def jlongToPtr (t : Target) (handle : jlong) : Ptr t :=
  ⟨(handle % (2 ^ t.abi.ptrBits : Nat)).toNat, by
    have hpos : (0 : Int) < ((2 ^ t.abi.ptrBits : Nat) : Int) := by positivity
    have h1 := Int.emod_nonneg handle (ne_of_gt hpos)
    have h2 := Int.emod_lt_of_pos handle hpos
    omega⟩

/-! ## The host side seen through JNI -/

/-- A host object: its class name and the values of its instance fields of
type `double`. -/
structure jobject where
  cls : String
  fields : List (String × jdouble)
  deriving DecidableEq, Repr

/-- A class reference: the class name and the names of its `double` fields. -/
structure jclass where
  name : String
  doubleFields : List String
  deriving DecidableEq, Repr

/-- A method reference: name and signature. -/
structure jmethodID where
  name : String
  sig : String
  deriving DecidableEq, Repr

/-- A call received by the core, with its arguments. -/
inductive CoreCall where
  | new (ret : Nat)
  | free (app : Nat)
  | update (app : Nat) (app_time_s : jdouble) (input_data : List jdouble)
  deriving DecidableEq, Repr

/-- The ways an entry point fails to produce its result. -/
inductive Fault where
  /-- Translation: a designator or member access names no member of the struct. -/
  | noMember (struct : String) (member : String)
  /-- `GetFieldID` returned `NULL`; the `GetDoubleField` on it is undefined. -/
  | nullFieldID (name : String) (sig : String)
  /-- `FindClass` returned `NULL`. -/
  | nullClass (name : String)
  /-- `GetMethodID` returned `NULL`. -/
  | nullMethodID (name : String) (sig : String)
  /-- The core was entered with a pointer to no live engine: undefined
  behaviour inside the core. -/
  | deadEngine (call : CoreCall)
  deriving DecidableEq, Repr

deriving instance DecidableEq for Except

/-- `GetObjectClass`. -/
def GetObjectClass (obj : jobject) : jclass :=
  ⟨obj.cls, obj.fields.map Prod.fst⟩

/-- `GetFieldID`: the field of that name and signature, or `NULL`. -/
def GetFieldID (clazz : jclass) (name sig : String) : Option String :=
  if sig = "D" ∧ name ∈ clazz.doubleFields then some name else none

/-- `GetDoubleField`. -/
def GetDoubleField (obj : jobject) (name sig : String) (fieldID : Option String) :
    Except Fault jdouble :=
  match fieldID with
  | none => .error (.nullFieldID name sig)
  | some f =>
    match obj.fields.lookup f with
    | some v => .ok v
    | none => .error (.nullFieldID name sig)

/-- The part of the JNI environment that belongs to the host application:
class lookup, constructor lookup and the constructors themselves.  The Java
classes are not part of the native sources, so they are a parameter. -/
structure JNIEnv where
  FindClass : String → Option jclass
  GetMethodID : jclass → String → String → Option jmethodID
  NewObject : jclass → jmethodID → List jdouble → jobject

/-! ## C struct initialisation and member access -/

/-- The first of `names` that is not a member of `d`, as a translation fault. -/
def checkMembers (d : StructDecl) : List String → Except Fault Unit
  | [] => .ok ()
  | n :: ns => if n ∈ d.memberNames then checkMembers d ns else .error (.noMember d.name n)

/-- A designated initialiser `{ .a = x, ... }`: every designator must name a
member; a member without designator is initialised to `0.0`. -/
def initStruct (d : StructDecl) (inits : List (String × jdouble)) :
    Except Fault (StructVal d) :=
  match checkMembers d (inits.map Prod.fst) with
  | .error f => .error f
  | .ok () => .ok ⟨d.members.map (fun m => (inits.lookup m.name).getD 0), by simp⟩

/-- A member access `v.name`. -/
def getMember (d : StructDecl) (v : StructVal d) (name : String) : Except Fault jdouble :=
  match d.memberNames.indexOf? name with
  | none => .error (.noMember d.name name)
  | some i => .ok (v.vals.getD i 0)

/-! ## The core behind the boundary -/

/-- The prebuilt core, compiled against header `hdr` for target `t`, with
engine states of type `σ`: the state of a new engine, the step function of one
engine, and the address the allocator picks for a new engine given the engines
that exist. -/
structure Core (t : Target) (hdr : Header) (σ : Type) where
  init : σ
  update : σ → jdouble → StructVal hdr.AppDataInput → σ × StructVal hdr.AppDataOutput
  alloc : (Ptr t → Option σ) → Ptr t

/-- The native side of the process: the live engines by address, and the calls
the core has received so far, oldest first. -/
structure World (t : Target) (σ : Type) where
  engines : Ptr t → Option σ
  calls : List CoreCall

/-- A process in which no engine exists and the core has not been called. -/
def World.empty (t : Target) (σ : Type) : World t σ :=
  ⟨fun _ => none, []⟩

/-- Modelled from the spec: `app_interface_new` is only declared in
`pictorus.h`.  It allocates an engine, initialises its state to the baseline
and returns its address. -/
def app_interface_new {t : Target} {hdr : Header} {σ : Type} (core : Core t hdr σ)
    (w : World t σ) : Ptr t × World t σ :=
  let p := core.alloc w.engines
  (p, ⟨Function.update w.engines p (some core.init), w.calls ++ [CoreCall.new p.val]⟩)

/-- Modelled from the spec: `app_interface_free` is only declared in
`pictorus.h`.  It releases the engine at `app`; on a pointer to no live engine
its behaviour is undefined, recorded as a fault. -/
def app_interface_free {t : Target} {σ : Type} (app : Ptr t) (w : World t σ) :
    Except Fault Unit × World t σ :=
  let call := CoreCall.free app.val
  match w.engines app with
  | none => (.error (.deadEngine call), ⟨w.engines, w.calls ++ [call]⟩)
  | some _ => (.ok (), ⟨Function.update w.engines app none, w.calls ++ [call]⟩)

/-- Modelled from the spec: `app_interface_update` is only declared in
`pictorus.h`.  It steps the engine at `app` with the time and the input record
and returns the output record by value; on a pointer to no live engine its
behaviour is undefined, recorded as a fault. -/
def app_interface_update {t : Target} {hdr : Header} {σ : Type} (core : Core t hdr σ)
    (app : Ptr t) (app_time_s : jdouble) (input_data : StructVal hdr.AppDataInput)
    (w : World t σ) : Except Fault (StructVal hdr.AppDataOutput) × World t σ :=
  let call := CoreCall.update app.val app_time_s input_data.vals
  match w.engines app with
  | none => (.error (.deadEngine call), ⟨w.engines, w.calls ++ [call]⟩)
  | some s =>
    let r := core.update s app_time_s input_data
    (.ok r.2, ⟨Function.update w.engines app (some r.1), w.calls ++ [call]⟩)

/-! ## `example_app.c` -/

/-- `example_app.c`, lines 14-16:
`Java_in_matter_pictorusdemo1_SimulationModelAppInterface_appInterfaceNew`. -/
def Java_in_matter_pictorusdemo1_SimulationModelAppInterface_appInterfaceNew
    {t : Target} {hdr : Header} {σ : Type} (core : Core t hdr σ)
    (w : World t σ) : jlong × World t σ :=
  let r := app_interface_new core w
  (ptrToJlong t r.1, r.2)

/-- `example_app.c`, lines 18-20:
`Java_in_matter_pictorusdemo1_SimulationModelAppInterface_appInterfaceFree`. -/
def Java_in_matter_pictorusdemo1_SimulationModelAppInterface_appInterfaceFree
    {t : Target} {σ : Type} (handle : jlong) (w : World t σ) :
    Except Fault Unit × World t σ :=
  app_interface_free (jlongToPtr t handle) w

/-- The designators of the initialiser of `cInput` (line 31). -/
def inputDesignators : List String := ["speed"]

/-- The members of `cOutput` the function reads (line 44). -/
def outputMembersRead : List String := ["Distance"]

/-- The class name passed to `FindClass` (line 41). -/
def outputClassName : String :=
  "in/matter/pictorusdemo1/SimulationModelAppInterface$AppDataOutput"

/-- `example_app.c`, lines 29-32: "Marshal Java object to C struct". -/
def marshalInput (hdr : Header) (inputData : jobject) :
    Except Fault (StructVal hdr.AppDataInput) :=
  match checkMembers hdr.AppDataInput inputDesignators with
  | .error f => .error f
  | .ok () =>
    let inputClass := GetObjectClass inputData
    match GetDoubleField inputData "speed" "D" (GetFieldID inputClass "speed" "D") with
    | .error f => .error f
    | .ok speed => initStruct hdr.AppDataInput [("speed", speed)]

/-- `example_app.c`, lines 41-45: "Marshal back to Java". -/
def marshalOutput (hdr : Header) (env : JNIEnv) (cOutput : StructVal hdr.AppDataOutput) :
    Except Fault jobject :=
  match checkMembers hdr.AppDataOutput outputMembersRead with
  | .error f => .error f
  | .ok () =>
    match env.FindClass outputClassName with
    | none => .error (.nullClass outputClassName)
    | some outputClass =>
      match env.GetMethodID outputClass "<init>" "(D)V" with
      | none => .error (.nullMethodID "<init>" "(D)V")
      | some ctor =>
        match getMember hdr.AppDataOutput cOutput "Distance" with
        | .error f => .error f
        | .ok distance => .ok (env.NewObject outputClass ctor [distance])

/-- Translation of the function body against the header: every designator and
every member access must name a member of its struct type. -/
def translationCheck (hdr : Header) : Except Fault Unit :=
  match checkMembers hdr.AppDataInput inputDesignators with
  | .error f => .error f
  | .ok () => checkMembers hdr.AppDataOutput outputMembersRead

/-- `example_app.c`, lines 22-47:
`Java_in_matter_pictorusdemo1_SimulationModelAppInterface_appInterfaceUpdate`. -/
def Java_in_matter_pictorusdemo1_SimulationModelAppInterface_appInterfaceUpdate
    {t : Target} {hdr : Header} {σ : Type} (env : JNIEnv)
    (core : Core t hdr σ) (handle : jlong) (appTimeS : jdouble) (inputData : jobject)
    (w : World t σ) : Except Fault jobject × World t σ :=
  match translationCheck hdr with
  | .error f => (.error f, w)
  | .ok () =>
    match marshalInput hdr inputData with
    | .error f => (.error f, w)
    | .ok cInput =>
      match app_interface_update core (jlongToPtr t handle) appTimeS cInput w with
      | (.error f, w1) => (.error f, w1)
      | (.ok cOutput, w1) => (marshalOutput hdr env cOutput, w1)

/-! ## Drivers -/

/-- One update call as the host issues it: handle, time, input object. -/
abbrev UpdateCall : Type := jlong × jdouble × jobject

/-- A host that issues a sequence of update calls and collects the returned
objects, each with the handle it was returned for.  A fault ends the run. -/
def runCalls {t : Target} {hdr : Header} {σ : Type} (env : JNIEnv) (core : Core t hdr σ) :
    List UpdateCall → World t σ → Except Fault (List (jlong × jobject)) × World t σ
  | [], w => (.ok [], w)
  | c :: cs, w =>
    let r := Java_in_matter_pictorusdemo1_SimulationModelAppInterface_appInterfaceUpdate
        env core c.1 c.2.1 c.2.2 w
    match r.1 with
    | .error f => (.error f, r.2)
    | .ok o =>
      let q := runCalls env core cs r.2
      match q.1 with
      | .error f => (.error f, q.2)
      | .ok os => (.ok ((c.1, o) :: os), q.2)

/-- The returned objects of a run, without the handles. -/
def objectsOf : Except Fault (List (jlong × jobject)) → Except Fault (List jobject)
  | .error f => .error f
  | .ok outs => .ok (outs.map Prod.snd)

/-- The session of the determinism property: create a handle, then issue the
given `(time, input)` sequence on it; the returned objects in order. -/
def freshSession {t : Target} {hdr : Header} {σ : Type} (env : JNIEnv) (core : Core t hdr σ)
    (steps : List (jdouble × jobject)) (w : World t σ) : Except Fault (List jobject) :=
  let r := Java_in_matter_pictorusdemo1_SimulationModelAppInterface_appInterfaceNew core w
  objectsOf (runCalls env core (steps.map (fun s => (r.1, s.1, s.2))) r.2).1

/-- The header `pictorus.h` with the two members added that `example_app.c`
names: `speed` in `AppDataInput` and `Distance` in `AppDataOutput`. -/
def pictorus_h_ext : Header where
  AppDataOutput :=
    ⟨"AppDataOutput", pictorus_AppDataOutput.members ++ [⟨.double, "Distance"⟩]⟩
  AppDataInput :=
    ⟨"AppDataInput", pictorus_AppDataInput.members ++ [⟨.double, "speed"⟩]⟩

/-- The bit pattern of `1.0`. -/
def one_d : jdouble := 0x3FF0000000000000

/-- The bit pattern of `2.0`. -/
def two_d : jdouble := 0x4000000000000000

/-- A host application whose output class has the constructor `(D)V`, storing
its argument in the field `distance`. -/
def sampleEnv : JNIEnv where
  FindClass := fun n => if n = outputClassName then some ⟨n, ["distance"]⟩ else none
  GetMethodID := fun _ n s => if n = "<init>" ∧ s = "(D)V" then some ⟨n, s⟩ else none
  NewObject := fun c _ args => ⟨c.name, [("distance", args.headD 0)]⟩

/-- The input record with every telemetry member `0.0` and `speed` set to
`2.0`, for the header `pictorus_h_ext`. -/
def sampleRecord : StructVal pictorus_h_ext.AppDataInput :=
  ⟨List.replicate 19 0 ++ [two_d], by decide⟩

/-- The output record with every member `0.0`. -/
def zeroFrame (d : StructDecl) : StructVal d :=
  ⟨d.members.map (fun _ => 0), by simp⟩

/-- The output record with `CurrentMaxSpeed` set to `1.0` and every other
member `0.0`. -/
def maxSpeedFrame (d : StructDecl) : StructVal d :=
  ⟨d.members.map (fun m => if m.name = "CurrentMaxSpeed" then one_d else 0), by simp⟩

/-- A host input object that carries all 19 telemetry fields, each set to
`1.0`, and a field `speed` set to `2.0`. -/
def sampleInput : jobject where
  cls := "in/matter/pictorusdemo1/SimulationModelAppInterface$AppDataInput"
  fields := pictorus_AppDataInput.memberNames.map (fun n => (n, one_d)) ++ [("speed", two_d)]

/-- A 64-bit target with zero-extending pointer casts. -/
def sampleTarget : Target := ⟨.lp64, false⟩

/-- A core for the header `pictorus_h_ext`: an engine counts its steps and
reports the `speed` it was given as `Distance`; the allocator hands out the
address 4096, or 8192 when 4096 is taken. -/
def sampleCore : Core sampleTarget pictorus_h_ext Nat where
  init := 0
  update := fun s _ i => (s + 1, ⟨List.replicate 27 0 ++ [i.vals.getD 19 0], by rfl⟩)
  alloc := fun engines => if (engines 4096).isNone then 4096 else 8192

/-- A core for the header `pictorus.h`: an engine counts its steps and reports
zero in every field. -/
def sampleCoreRepo : Core sampleTarget pictorus_h Nat where
  init := 0
  update := fun s _ _ => (s + 1, zeroFrame pictorus_h.AppDataOutput)
  alloc := fun engines => if (engines 4096).isNone then 4096 else 8192

/-- A process in which two engines have been created. -/
def sampleWorld : World sampleTarget Nat :=
  (Java_in_matter_pictorusdemo1_SimulationModelAppInterface_appInterfaceNew
      sampleCore (Java_in_matter_pictorusdemo1_SimulationModelAppInterface_appInterfaceNew
        sampleCore (World.empty sampleTarget Nat)).2).2

/-- The object `sampleEnv` builds for the distance `2.0`. -/
def sampleOutput : jobject := ⟨outputClassName, [("distance", two_d)]⟩

/-- A host input object that carries exactly the 19 fields `pictorus.h` declares,
each set to `1.0`, and no field `speed`. -/
def declaredInput : jobject where
  cls := "in/matter/pictorusdemo1/SimulationModelAppInterface$AppDataInput"
  fields := pictorus_AppDataInput.memberNames.map (fun n => (n, one_d))

/-- A process in which one engine has been created by the core for
`pictorus.h`. -/
def sampleWorldRepo : World sampleTarget Nat :=
  (Java_in_matter_pictorusdemo1_SimulationModelAppInterface_appInterfaceNew
    sampleCoreRepo (World.empty sampleTarget Nat)).2

/-- A process in which an engine was created at 4096 and freed again. -/
def freedWorld : World sampleTarget Nat :=
  (Java_in_matter_pictorusdemo1_SimulationModelAppInterface_appInterfaceFree 4096
    (Java_in_matter_pictorusdemo1_SimulationModelAppInterface_appInterfaceNew
      sampleCore (World.empty sampleTarget Nat)).2).2

/-- The process `freedWorld` after one more engine has been created; the
allocator hands out the address 4096 again. -/
def reusedWorld : World sampleTarget Nat :=
  (Java_in_matter_pictorusdemo1_SimulationModelAppInterface_appInterfaceNew sampleCore freedWorld).2

/-! ## Properties of the declarations -/

/-- C3. The telemetry `AppDataInput` of `pictorus.h` has exactly 19 members,
all of type `double`, pairwise distinct, and its member names are exactly the
19 names the specification lists (in another order). -/
theorem telemetry_input_shape :
    pictorus_h.AppDataInput.members.length = 19 ∧
    (∀ m ∈ pictorus_h.AppDataInput.members, m.type = CType.double) ∧
    pictorus_h.AppDataInput.memberNames.Nodup ∧
    specTelemetryInputNames.Nodup ∧
    List.Perm pictorus_h.AppDataInput.memberNames specTelemetryInputNames := by
  refine ⟨by decide, by decide, by decide, by decide, by decide⟩

/-- C4. The telemetry `AppDataOutput` of `pictorus.h` has exactly 27 members,
all of type `double`, pairwise distinct, and among them are the fields the
specification names: maximum and average speed, distance travelled, 0-to-60
time, the range fields at full, 25, 50 and 75 percent charge raw and eco, the
two fall-detection flags, `gForce`, `LeanAngle`, `pitchangle` and
`SuggestedGear`. -/
theorem telemetry_output_shape :
    pictorus_h.AppDataOutput.members.length = 27 ∧
    (∀ m ∈ pictorus_h.AppDataOutput.members, m.type = CType.double) ∧
    pictorus_h.AppDataOutput.memberNames.Nodup ∧
    (∀ n ∈ specTelemetryOutputNames, n ∈ pictorus_h.AppDataOutput.memberNames) := by
  refine ⟨by decide, by decide, by decide, by decide⟩

/-- C5. In `pictorus_crashmodel.h`, `AppDataInput` is exactly the four `double`
members `Speed`, `Curr`, `Ay`, `EntropyDiff`, in that order, and
`AppDataOutput` is exactly the one `double` member `CrashFlag`. -/
theorem crashmodel_shape :
    pictorus_crashmodel_h.AppDataInput.members =
      [⟨CType.double, "Speed"⟩, ⟨CType.double, "Curr"⟩, ⟨CType.double, "Ay"⟩,
       ⟨CType.double, "EntropyDiff"⟩] ∧
    pictorus_crashmodel_h.AppDataInput.members.length = 4 ∧
    pictorus_crashmodel_h.AppDataOutput.members = [⟨CType.double, "CrashFlag"⟩] ∧
    pictorus_crashmodel_h.AppDataOutput.members.length = 1 := by
  refine ⟨by decide, by decide, by decide, by decide⟩

/-! ## The handle casts -/

/-- Casting a pointer to `jlong` and back yields the pointer, on every target. -/
theorem jlongToPtr_ptrToJlong (t : Target) (p : Ptr t) :
    jlongToPtr t (ptrToJlong t p) = p := by
  obtain ⟨abi, se⟩ := t
  obtain ⟨v, hv⟩ := p
  cases abi <;> cases se <;>
    simp only [Abi.ptrBits] at hv <;>
    simp only [jlongToPtr, ptrToJlong, wrapJlong, Abi.ptrBits, Bool.false_and, Bool.true_and,
      decide_eq_true_eq, Fin.mk.injEq] <;>
    norm_num at hv ⊢ <;>
    (repeat' split) <;> omega

/-- A pointer cast to `jlong` is a signed 64-bit value. -/
theorem ptrToJlong_range (t : Target) (p : Ptr t) :
    -(2 ^ 63 : Int) ≤ (ptrToJlong t p : Int) ∧ (ptrToJlong t p : Int) < 2 ^ 63 := by
  have hw : ∀ n : Nat, -(2 ^ 63 : Int) ≤ (wrapJlong n : Int) ∧ (wrapJlong n : Int) < 2 ^ 63 := by
    intro n
    unfold wrapJlong
    have h := Nat.mod_lt n (show 0 < 2 ^ 64 by norm_num)
    generalize n % 2 ^ 64 = r at h
    have e64 : (2 : Int) ^ 64 = 18446744073709551616 := by norm_num
    have e63 : (2 : Int) ^ 63 = 9223372036854775808 := by norm_num
    have n64 : (2 : Nat) ^ 64 = 18446744073709551616 := by norm_num
    have n63 : (2 : Nat) ^ 63 = 9223372036854775808 := by norm_num
    rw [n64] at h
    rw [e63, n63]
    split
    · show -(9223372036854775808 : Int) ≤ (r : Int) ∧ (r : Int) < 9223372036854775808
      omega
    · rw [e64]
      show -(9223372036854775808 : Int) ≤ (r : Int) - 18446744073709551616 ∧
        (r : Int) - 18446744073709551616 < 9223372036854775808
      omega
  unfold ptrToJlong
  split
  · exact hw _
  · exact hw _

/-- Distinct engines have distinct handles. -/
theorem ptrToJlong_injective (t : Target) (p q : Ptr t)
    (h : ptrToJlong t p = ptrToJlong t q) : p = q := by
  rw [← jlongToPtr_ptrToJlong t p, ← jlongToPtr_ptrToJlong t q, h]

/-! ## Marshalling -/

/-- What `initStruct` builds when it succeeds. -/
theorem initStruct_vals (d : StructDecl) (inits : List (String × jdouble)) (v : StructVal d)
    (h : initStruct d inits = .ok v) :
    v.vals = d.members.map (fun m => (inits.lookup m.name).getD 0) := by
  unfold initStruct at h
  split at h
  · exact absurd h (by simp)
  · simp only [Except.ok.injEq] at h
    rw [← h]

/-- The input record, when one is built, is the initialiser applied to the
value of the host field `speed`. -/
theorem marshalInput_ok (hdr : Header) (inputData : jobject)
    (cInput : StructVal hdr.AppDataInput) (h : marshalInput hdr inputData = .ok cInput) :
    ∃ speed, inputData.fields.lookup "speed" = some speed ∧
      cInput.vals =
        hdr.AppDataInput.members.map (fun m => if m.name = "speed" then speed else 0) := by
  unfold marshalInput at h
  split at h
  · exact absurd h (by simp)
  · simp only at h
    split at h
    · exact absurd h (by simp)
    · rename_i speed hs
      refine ⟨speed, ?_, ?_⟩
      · unfold GetDoubleField at hs
        split at hs
        · exact absurd hs (by simp)
        · rename_i f hf
          unfold GetFieldID at hf
          split at hf
          · simp only [Option.some.injEq] at hf
            subst hf
            split at hs
            · rename_i v hv
              simp only [Except.ok.injEq] at hs
              rw [hv, hs]
            · exact absurd hs (by simp)
          · exact absurd hf (by simp)
      · rw [initStruct_vals _ _ _ h]
        apply List.map_congr_left
        intro m _
        by_cases hm : m.name = "speed"
        · simp [hm, List.lookup]
        · have : ("speed" == m.name) = false := by
            simp only [beq_eq_false_iff_ne, ne_eq]
            exact fun e => hm e.symm
          have hm2 : (m.name == "speed") = false := by
            simp only [beq_eq_false_iff_ne, ne_eq]
            exact hm
          simp [hm, List.lookup, hm2]

/-- The input record depends on the host object only through its field
`speed`. -/
theorem marshalInput_congr (hdr : Header) (a b : jobject)
    (h : a.fields.lookup "speed" = b.fields.lookup "speed") :
    marshalInput hdr a = marshalInput hdr b := by
  have key : GetDoubleField a "speed" "D" (GetFieldID (GetObjectClass a) "speed" "D") =
      GetDoubleField b "speed" "D" (GetFieldID (GetObjectClass b) "speed" "D") := by
    have mem : ∀ o : jobject, "speed" ∈ (GetObjectClass o).doubleFields ↔
        (o.fields.lookup "speed").isSome := by
      intro o
      simp only [GetObjectClass]
      induction o.fields with
      | nil => simp
      | cons x xs ih =>
        by_cases hx : x.1 = "speed"
        · have : ("speed" == x.1) = true := by simp [hx]
          simp [List.lookup, hx]
        · have : ("speed" == x.1) = false := by
            simp only [beq_eq_false_iff_ne, ne_eq]
            exact fun e => hx e.symm
          simp only [List.map_cons, List.mem_cons, List.lookup, this]
          rw [← ih]
          constructor
          · rintro (e | e)
            · exact absurd e.symm hx
            · exact e
          · exact fun e => Or.inr e
    unfold GetDoubleField GetFieldID
    by_cases ha : (a.fields.lookup "speed").isSome
    · have hb : (b.fields.lookup "speed").isSome := h ▸ ha
      simp only [(mem a).2 ha, (mem b).2 hb, and_self, if_true, h]
    · have hb : ¬ (b.fields.lookup "speed").isSome := h ▸ ha
      have ha2 : ¬ "speed" ∈ (GetObjectClass a).doubleFields := fun e => ha ((mem a).1 e)
      have hb2 : ¬ "speed" ∈ (GetObjectClass b).doubleFields := fun e => hb ((mem b).1 e)
      simp only [ha2, hb2, and_false, if_false]
  unfold marshalInput
  simp only [key]

/-- The returned host object depends on the output record only through the
value the member access `cOutput.Distance` yields. -/
theorem marshalOutput_congr (hdr : Header) (env : JNIEnv) (a b : StructVal hdr.AppDataOutput)
    (h : getMember hdr.AppDataOutput a "Distance" = getMember hdr.AppDataOutput b "Distance") :
    marshalOutput hdr env a = marshalOutput hdr env b := by
  unfold marshalOutput
  simp only [h]

/-- C1. Code at the failing input: the initialiser of `cInput` names the single
designator `speed`, which `pictorus.h` does not declare (it declares `Speed`),
so against `pictorus.h` no input record is built; and against a header that
also declares `speed`, the 19 telemetry members are `0.0` although the host
object holds `1.0` in each of them. -/
theorem input_marshalling_diverges :
    inputDesignators = ["speed"] ∧
    "speed" ∉ pictorus_h.AppDataInput.memberNames ∧
    marshalInput pictorus_h sampleInput = .error (.noMember "AppDataInput" "speed") ∧
    (∀ n ∈ pictorus_h.AppDataInput.memberNames, sampleInput.fields.lookup n = some one_d) ∧
    (marshalInput pictorus_h_ext sampleInput).toOption.map StructVal.vals =
      some (List.replicate 19 0 ++ [two_d]) ∧
    (0 : jdouble) ≠ one_d := by
  refine ⟨rfl, by decide, by rfl, by decide, by decide, by decide⟩

/-- C2. Code at the failing input: the only member of `cOutput` the function
reads is `Distance`, which `pictorus.h` does not declare, so against
`pictorus.h` no host object is built; and against a header that also declares
`Distance`, two output records that differ in `CurrentMaxSpeed` are returned
as the same host object. -/
theorem output_marshalling_diverges :
    outputMembersRead = ["Distance"] ∧
    "Distance" ∉ pictorus_h.AppDataOutput.memberNames ∧
    marshalOutput pictorus_h sampleEnv (zeroFrame pictorus_h.AppDataOutput) =
      .error (.noMember "AppDataOutput" "Distance") ∧
    (zeroFrame pictorus_h_ext.AppDataOutput).vals ≠
      (maxSpeedFrame pictorus_h_ext.AppDataOutput).vals ∧
    marshalOutput pictorus_h_ext sampleEnv (zeroFrame pictorus_h_ext.AppDataOutput) =
      marshalOutput pictorus_h_ext sampleEnv (maxSpeedFrame pictorus_h_ext.AppDataOutput) ∧
    (marshalOutput pictorus_h_ext sampleEnv (zeroFrame pictorus_h_ext.AppDataOutput)).toOption =
      some ⟨outputClassName, [("distance", 0)]⟩ := by
  refine ⟨rfl, by decide, by decide, by decide, by rfl, by decide⟩

/-- C10. Whenever the function builds an input record, every member of the
record that the initialiser does not name is `0.0`, whatever the host object
holds; and every host object with the same `speed` field yields the same
record. -/
theorem unnamed_input_fields_zero (hdr : Header) (inputData : jobject)
    (cInput : StructVal hdr.AppDataInput) (h : marshalInput hdr inputData = .ok cInput) :
    (∀ (i : Nat) (m : Member), hdr.AppDataInput.members[i]? = some m →
        m.name ∉ inputDesignators → cInput.vals[i]? = some 0) ∧
    (∀ other : jobject, other.fields.lookup "speed" = inputData.fields.lookup "speed" →
        marshalInput hdr other = .ok cInput) := by
  constructor
  · intro i m hm hn
    obtain ⟨speed, -, hv⟩ := marshalInput_ok hdr inputData cInput h
    have hne : m.name ≠ "speed" := by
      intro e
      exact hn (by simp [inputDesignators, e])
    rw [hv, List.getElem?_map, hm]
    simp [hne]
  · intro other ho
    rw [marshalInput_congr hdr other inputData ho, h]

/-- C10, at the header `pictorus_h_ext` and the sample host object. -/
theorem unnamed_input_fields_zero_witness :
    marshalInput pictorus_h_ext sampleInput = .ok sampleRecord ∧
    ((∀ (i : Nat) (m : Member), pictorus_h_ext.AppDataInput.members[i]? = some m →
        m.name ∉ inputDesignators → sampleRecord.vals[i]? = some 0) ∧
     (∀ other : jobject, other.fields.lookup "speed" = sampleInput.fields.lookup "speed" →
        marshalInput pictorus_h_ext other = .ok sampleRecord)) :=
  ⟨by rfl, unnamed_input_fields_zero pictorus_h_ext sampleInput sampleRecord (by rfl)⟩

/-! ## The update entry point, case by case -/

section Update

variable {t : Target} {hdr : Header} {σ : Type}

/-- The function does not translate: nothing happens. -/
theorem appInterfaceUpdate_untranslated (env : JNIEnv) (core : Core t hdr σ) (handle : jlong)
    (appTimeS : jdouble) (inputData : jobject) (w : World t σ) (f : Fault)
    (hT : translationCheck hdr = .error f) :
    Java_in_matter_pictorusdemo1_SimulationModelAppInterface_appInterfaceUpdate
        env core handle appTimeS inputData w = (.error f, w) := by
  unfold Java_in_matter_pictorusdemo1_SimulationModelAppInterface_appInterfaceUpdate
  simp only [hT]

/-- The input object cannot be marshalled: the core is not reached. -/
theorem appInterfaceUpdate_unmarshalled (env : JNIEnv) (core : Core t hdr σ) (handle : jlong)
    (appTimeS : jdouble) (inputData : jobject) (w : World t σ) (f : Fault)
    (hT : translationCheck hdr = .ok ()) (hM : marshalInput hdr inputData = .error f) :
    Java_in_matter_pictorusdemo1_SimulationModelAppInterface_appInterfaceUpdate
        env core handle appTimeS inputData w = (.error f, w) := by
  unfold Java_in_matter_pictorusdemo1_SimulationModelAppInterface_appInterfaceUpdate
  simp only [hT, hM]

/-- The handle denotes a live engine: the engine is stepped once and the
output record is marshalled. -/
theorem appInterfaceUpdate_live (env : JNIEnv) (core : Core t hdr σ) (handle : jlong)
    (appTimeS : jdouble) (inputData : jobject) (w : World t σ)
    (cInput : StructVal hdr.AppDataInput) (s : σ)
    (hT : translationCheck hdr = .ok ()) (hM : marshalInput hdr inputData = .ok cInput)
    (hs : w.engines (jlongToPtr t handle) = some s) :
    Java_in_matter_pictorusdemo1_SimulationModelAppInterface_appInterfaceUpdate
        env core handle appTimeS inputData w =
      (marshalOutput hdr env (core.update s appTimeS cInput).2,
       ⟨Function.update w.engines (jlongToPtr t handle) (some (core.update s appTimeS cInput).1),
        w.calls ++ [CoreCall.update (jlongToPtr t handle).val appTimeS cInput.vals]⟩) := by
  unfold Java_in_matter_pictorusdemo1_SimulationModelAppInterface_appInterfaceUpdate
      app_interface_update
  simp only [hT, hM, hs]

/-- The handle denotes no live engine: the call still reaches the core. -/
theorem appInterfaceUpdate_dead (env : JNIEnv) (core : Core t hdr σ) (handle : jlong)
    (appTimeS : jdouble) (inputData : jobject) (w : World t σ)
    (cInput : StructVal hdr.AppDataInput)
    (hT : translationCheck hdr = .ok ()) (hM : marshalInput hdr inputData = .ok cInput)
    (hs : w.engines (jlongToPtr t handle) = none) :
    Java_in_matter_pictorusdemo1_SimulationModelAppInterface_appInterfaceUpdate
        env core handle appTimeS inputData w =
      (.error (.deadEngine (CoreCall.update (jlongToPtr t handle).val appTimeS cInput.vals)),
       ⟨w.engines,
        w.calls ++ [CoreCall.update (jlongToPtr t handle).val appTimeS cInput.vals]⟩) := by
  unfold Java_in_matter_pictorusdemo1_SimulationModelAppInterface_appInterfaceUpdate
      app_interface_update
  simp only [hT, hM, hs]

/-- Two live engines in the same state, reached through their own handles in
their own worlds, return the same result to the same call and are left in the
same state, which is live again. -/
theorem appInterfaceUpdate_twin (env : JNIEnv) (core : Core t hdr σ) (h1 h2 : jlong)
    (appTimeS : jdouble) (inputData : jobject) (w1 w2 : World t σ) (s : σ)
    (e1 : w1.engines (jlongToPtr t h1) = some s) (e2 : w2.engines (jlongToPtr t h2) = some s) :
    (Java_in_matter_pictorusdemo1_SimulationModelAppInterface_appInterfaceUpdate
        env core h1 appTimeS inputData w1).1 =
      (Java_in_matter_pictorusdemo1_SimulationModelAppInterface_appInterfaceUpdate
          env core h2 appTimeS inputData w2).1 ∧
    ∃ s1, (Java_in_matter_pictorusdemo1_SimulationModelAppInterface_appInterfaceUpdate
        env core h1 appTimeS inputData w1).2.engines (jlongToPtr t h1) =
        some s1 ∧
      (Java_in_matter_pictorusdemo1_SimulationModelAppInterface_appInterfaceUpdate
          env core h2 appTimeS inputData w2).2.engines (jlongToPtr t h2) =
        some s1 := by
  cases hT : translationCheck hdr with
  | error f =>
    rw [appInterfaceUpdate_untranslated env core h1 appTimeS inputData w1 f hT,
      appInterfaceUpdate_untranslated env core h2 appTimeS inputData w2 f hT]
    exact ⟨rfl, s, e1, e2⟩
  | ok u =>
    cases hM : marshalInput hdr inputData with
    | error f =>
      rw [appInterfaceUpdate_unmarshalled env core h1 appTimeS inputData w1 f hT hM,
        appInterfaceUpdate_unmarshalled env core h2 appTimeS inputData w2 f hT hM]
      exact ⟨rfl, s, e1, e2⟩
    | ok cInput =>
      rw [appInterfaceUpdate_live env core h1 appTimeS inputData w1 cInput s hT hM e1,
        appInterfaceUpdate_live env core h2 appTimeS inputData w2 cInput s hT hM e2]
      refine ⟨rfl, (core.update s appTimeS cInput).1, ?_, ?_⟩ <;>
        simp only [Function.update_same]

end Update

/-! ## Runs of update calls -/

section Runs

variable {t : Target} {hdr : Header} {σ : Type}

/-- Two live engines in the same state return the same objects to the same
sequence of `(time, input)` pairs, each driven through its own handle in its
own world. -/
theorem runCalls_twin (env : JNIEnv) (core : Core t hdr σ) (steps : List (jdouble × jobject)) :
    ∀ (h1 h2 : jlong) (w1 w2 : World t σ) (s : σ),
      w1.engines (jlongToPtr t h1) = some s → w2.engines (jlongToPtr t h2) = some s →
      objectsOf (runCalls env core (steps.map (fun st => (h1, st.1, st.2))) w1).1 =
        objectsOf (runCalls env core (steps.map (fun st => (h2, st.1, st.2))) w2).1 := by
  induction steps with
  | nil => intro h1 h2 w1 w2 s _ _; rfl
  | cons st rest ih =>
    intro h1 h2 w1 w2 s e1 e2
    obtain ⟨hres, s1, f1, f2⟩ :=
      appInterfaceUpdate_twin env core h1 h2 st.1 st.2 w1 w2 s e1 e2
    have hrec := ih h1 h2 _ _ s1 f1 f2
    simp only [List.map_cons, runCalls]
    rw [hres]
    cases (Java_in_matter_pictorusdemo1_SimulationModelAppInterface_appInterfaceUpdate
        env core h2 st.1 st.2 w2).1 with
    | error f => rfl
    | ok o =>
      simp only
      revert hrec
      cases (runCalls env core (rest.map (fun st => (h1, st.1, st.2)))
          (Java_in_matter_pictorusdemo1_SimulationModelAppInterface_appInterfaceUpdate
              env core h1 st.1 st.2 w1).2).1 <;>
        cases (runCalls env core (rest.map (fun st => (h2, st.1, st.2)))
          (Java_in_matter_pictorusdemo1_SimulationModelAppInterface_appInterfaceUpdate
              env core h2 st.1 st.2 w2).2).1 <;>
        simp [objectsOf]

end Runs

/-! ## The boundary as a whole -/

section Boundary

variable {t : Target} {hdr : Header} {σ : Type}

/-- Against `pictorus.h` the update entry point does not translate: it names
the member `speed`, which `AppDataInput` does not have.  No call reaches the
core. -/
theorem appInterfaceUpdate_pictorus_h (env : JNIEnv) (core : Core t pictorus_h σ)
    (handle : jlong) (appTimeS : jdouble) (inputData : jobject) (w : World t σ) :
    Java_in_matter_pictorusdemo1_SimulationModelAppInterface_appInterfaceUpdate
        env core handle appTimeS inputData w =
      (.error (.noMember "AppDataInput" "speed"), w) :=
  appInterfaceUpdate_untranslated env core handle appTimeS inputData w _ (by decide)

/-- A session on the sample core returns one object per step. -/
theorem freshSession_sample :
    freshSession sampleEnv sampleCore [(0, sampleInput), (one_d, sampleInput)]
      (World.empty sampleTarget Nat) = .ok [sampleOutput, sampleOutput] := by
  decide

/-- C6. Determinism of the update boundary: for a fixed core and host, every
sequence of `(appTimeS, input object)` pairs issued on a freshly created handle
returns the same sequence of objects, whatever process the handle was created
in (which engines exist there, what the core was called with before, which
address the new engine gets). -/
theorem update_boundary_deterministic (env : JNIEnv) (core : Core t hdr σ)
    (steps : List (jdouble × jobject)) (w1 w2 : World t σ) :
    freshSession env core steps w1 = freshSession env core steps w2 := by
  unfold freshSession Java_in_matter_pictorusdemo1_SimulationModelAppInterface_appInterfaceNew
      app_interface_new
  apply runCalls_twin env core steps _ _ _ _ core.init
  · rw [jlongToPtr_ptrToJlong]
    exact Function.update_same _ _ _
  · rw [jlongToPtr_ptrToJlong]
    exact Function.update_same _ _ _

/-- C8, as stated, fails.  On the sample core: a handle is created and freed;
a second `appInterfaceFree` and an `appInterfaceUpdate` on the same handle are
not rejected by the wrapper but reach the core (they are the last call in the
core's log), which is entered with a pointer to no live engine. -/
theorem use_after_free_not_rejected :
    (Java_in_matter_pictorusdemo1_SimulationModelAppInterface_appInterfaceNew
        sampleCore (World.empty sampleTarget Nat)).1 = 4096 ∧
    (Java_in_matter_pictorusdemo1_SimulationModelAppInterface_appInterfaceFree
        4096 (Java_in_matter_pictorusdemo1_SimulationModelAppInterface_appInterfaceNew
          sampleCore (World.empty sampleTarget Nat)).2).1 =
      .ok () ∧
    (Java_in_matter_pictorusdemo1_SimulationModelAppInterface_appInterfaceFree 4096
      (Java_in_matter_pictorusdemo1_SimulationModelAppInterface_appInterfaceFree 4096
        (Java_in_matter_pictorusdemo1_SimulationModelAppInterface_appInterfaceNew
            sampleCore (World.empty sampleTarget Nat)).2).2).1 =
      .error (.deadEngine (.free 4096)) ∧
    (Java_in_matter_pictorusdemo1_SimulationModelAppInterface_appInterfaceFree 4096
      (Java_in_matter_pictorusdemo1_SimulationModelAppInterface_appInterfaceFree 4096
        (Java_in_matter_pictorusdemo1_SimulationModelAppInterface_appInterfaceNew
            sampleCore (World.empty sampleTarget Nat)).2).2).2.calls =
      [.new 4096, .free 4096, .free 4096] ∧
    (Java_in_matter_pictorusdemo1_SimulationModelAppInterface_appInterfaceUpdate
        sampleEnv sampleCore 4096 one_d sampleInput
      (Java_in_matter_pictorusdemo1_SimulationModelAppInterface_appInterfaceFree 4096
        (Java_in_matter_pictorusdemo1_SimulationModelAppInterface_appInterfaceNew
            sampleCore (World.empty sampleTarget Nat)).2).2).1 =
      .error (.deadEngine (.update 4096 one_d sampleRecord.vals)) ∧
    (Java_in_matter_pictorusdemo1_SimulationModelAppInterface_appInterfaceUpdate
        sampleEnv sampleCore 4096 one_d sampleInput
      (Java_in_matter_pictorusdemo1_SimulationModelAppInterface_appInterfaceFree 4096
        (Java_in_matter_pictorusdemo1_SimulationModelAppInterface_appInterfaceNew
            sampleCore (World.empty sampleTarget Nat)).2).2).2.calls =
      [.new 4096, .free 4096, .update 4096 one_d sampleRecord.vals] := by
  refine ⟨by decide, by decide, by decide, by decide, by decide, by decide⟩

/-- C8, amended.  The wrapper keeps no record of freed handles and checks
nothing about a handle, in any state of the process:

* `appInterfaceFree(handle)` is `app_interface_free` on the pointer the handle
  casts to, one call;
* `appInterfaceUpdate(handle, t, in)`, when the function translates against
  the header and the input object marshals, is one call of
  `app_interface_update` on that pointer with the time `t` and the marshalled
  record: on an engine that is not live the core is entered with the dead
  pointer, on a live engine (also one that was created at the same address
  after the handle was freed) that engine is stepped;
* when the function does not translate or the input object does not marshal,
  the fault is the same for every handle and every state, so it is no
  rejection of the handle;
* right after `appInterfaceFree(handle)` the engine at that pointer is not
  live, and `appInterfaceFree` on a pointer to no live engine enters the core
  with it. -/
theorem use_after_free_forwarded (env : JNIEnv) (core : Core t hdr σ) (handle : jlong) :
    (∀ w : World t σ,
      Java_in_matter_pictorusdemo1_SimulationModelAppInterface_appInterfaceFree handle w =
        app_interface_free (jlongToPtr t handle) w ∧
      (Java_in_matter_pictorusdemo1_SimulationModelAppInterface_appInterfaceFree handle w).2.calls =
        w.calls ++ [.free (jlongToPtr t handle).val]) ∧
    (∀ (w : World t σ) (appTimeS : jdouble) (inputData : jobject)
        (cInput : StructVal hdr.AppDataInput),
      translationCheck hdr = .ok () → marshalInput hdr inputData = .ok cInput →
      (Java_in_matter_pictorusdemo1_SimulationModelAppInterface_appInterfaceUpdate
          env core handle appTimeS inputData w).2.calls =
        w.calls ++ [.update (jlongToPtr t handle).val appTimeS cInput.vals] ∧
      (w.engines (jlongToPtr t handle) = none →
        Java_in_matter_pictorusdemo1_SimulationModelAppInterface_appInterfaceUpdate
            env core handle appTimeS inputData w =
          (.error (.deadEngine (.update (jlongToPtr t handle).val appTimeS cInput.vals)),
           ⟨w.engines, w.calls ++ [.update (jlongToPtr t handle).val appTimeS cInput.vals]⟩)) ∧
      (∀ s, w.engines (jlongToPtr t handle) = some s →
        Java_in_matter_pictorusdemo1_SimulationModelAppInterface_appInterfaceUpdate
            env core handle appTimeS inputData w =
          (marshalOutput hdr env (core.update s appTimeS cInput).2,
           ⟨Function.update w.engines (jlongToPtr t handle)
              (some (core.update s appTimeS cInput).1),
            w.calls ++ [.update (jlongToPtr t handle).val appTimeS cInput.vals]⟩))) ∧
    (∀ (appTimeS : jdouble) (inputData : jobject) (f : Fault),
      (translationCheck hdr = .error f ∨
        (translationCheck hdr = .ok () ∧ marshalInput hdr inputData = .error f)) →
      ∀ (h : jlong) (w : World t σ),
        Java_in_matter_pictorusdemo1_SimulationModelAppInterface_appInterfaceUpdate
            env core h appTimeS inputData w = (.error f, w)) ∧
    (∀ w : World t σ,
      (Java_in_matter_pictorusdemo1_SimulationModelAppInterface_appInterfaceFree
          handle w).2.engines (jlongToPtr t handle) = none) ∧
    (∀ w : World t σ, w.engines (jlongToPtr t handle) = none →
      Java_in_matter_pictorusdemo1_SimulationModelAppInterface_appInterfaceFree handle w =
        (.error (.deadEngine (.free (jlongToPtr t handle).val)),
         ⟨w.engines, w.calls ++ [.free (jlongToPtr t handle).val]⟩)) := by
  refine ⟨fun w => ⟨rfl, ?_⟩, ?_, ?_, ?_, ?_⟩
  · unfold Java_in_matter_pictorusdemo1_SimulationModelAppInterface_appInterfaceFree
      app_interface_free
    cases w.engines (jlongToPtr t handle) <;> rfl
  · intro w appTimeS inputData cInput hT hM
    refine ⟨?_, ?_, ?_⟩
    · cases hs : w.engines (jlongToPtr t handle) with
      | none => rw [appInterfaceUpdate_dead env core handle appTimeS inputData w cInput hT hM hs]
      | some s =>
        rw [appInterfaceUpdate_live env core handle appTimeS inputData w cInput s hT hM hs]
    · exact appInterfaceUpdate_dead env core handle appTimeS inputData w cInput hT hM
    · exact fun s hs =>
        appInterfaceUpdate_live env core handle appTimeS inputData w cInput s hT hM hs
  · intro appTimeS inputData f hf h w
    rcases hf with hT | ⟨hT, hM⟩
    · exact appInterfaceUpdate_untranslated env core h appTimeS inputData w f hT
    · exact appInterfaceUpdate_unmarshalled env core h appTimeS inputData w f hT hM
  · intro w
    unfold Java_in_matter_pictorusdemo1_SimulationModelAppInterface_appInterfaceFree
      app_interface_free
    cases hs : w.engines (jlongToPtr t handle) with
    | none => simpa using hs
    | some s => simp
  · intro w hs
    unfold Java_in_matter_pictorusdemo1_SimulationModelAppInterface_appInterfaceFree
      app_interface_free
    simp only [hs]

/-- C8 amended, on the sample core: an update and a free on the handle 4096
right after it was freed, an update on it after the address was handed out
again, and an update with an input object that does not marshal. -/
theorem use_after_free_forwarded_witness :
    (translationCheck pictorus_h_ext = .ok () ∧
      marshalInput pictorus_h_ext sampleInput = .ok sampleRecord ∧
      freedWorld.engines (jlongToPtr sampleTarget 4096) = none ∧
      Java_in_matter_pictorusdemo1_SimulationModelAppInterface_appInterfaceUpdate
          sampleEnv sampleCore 4096 one_d sampleInput freedWorld =
        (.error (.deadEngine (.update (jlongToPtr sampleTarget 4096).val one_d
            sampleRecord.vals)),
         ⟨freedWorld.engines,
          freedWorld.calls ++
            [.update (jlongToPtr sampleTarget 4096).val one_d sampleRecord.vals]⟩)) ∧
    (reusedWorld.engines (jlongToPtr sampleTarget 4096) = some 0 ∧
      Java_in_matter_pictorusdemo1_SimulationModelAppInterface_appInterfaceUpdate
          sampleEnv sampleCore 4096 one_d sampleInput reusedWorld =
        (marshalOutput pictorus_h_ext sampleEnv (sampleCore.update 0 one_d sampleRecord).2,
         ⟨Function.update reusedWorld.engines (jlongToPtr sampleTarget 4096)
            (some (sampleCore.update 0 one_d sampleRecord).1),
          reusedWorld.calls ++
            [.update (jlongToPtr sampleTarget 4096).val one_d sampleRecord.vals]⟩)) ∧
    (marshalInput pictorus_h_ext declaredInput = .error (.nullFieldID "speed" "D") ∧
      ∀ (h : jlong) (w : World sampleTarget Nat),
        Java_in_matter_pictorusdemo1_SimulationModelAppInterface_appInterfaceUpdate
            sampleEnv sampleCore h one_d declaredInput w =
          (.error (.nullFieldID "speed" "D"), w)) ∧
    (Java_in_matter_pictorusdemo1_SimulationModelAppInterface_appInterfaceFree 4096 freedWorld =
      (.error (.deadEngine (.free (jlongToPtr sampleTarget 4096).val)),
       ⟨freedWorld.engines,
        freedWorld.calls ++ [.free (jlongToPtr sampleTarget 4096).val]⟩)) :=
  ⟨⟨by decide, by rfl, by decide,
    ((use_after_free_forwarded sampleEnv sampleCore 4096).2.1 freedWorld one_d sampleInput
      sampleRecord (by decide) (by rfl)).2.1 (by decide)⟩,
   ⟨by decide,
    ((use_after_free_forwarded sampleEnv sampleCore 4096).2.1 reusedWorld one_d sampleInput
      sampleRecord (by decide) (by rfl)).2.2 0 (by decide)⟩,
   ⟨by rfl,
    (use_after_free_forwarded sampleEnv sampleCore 4096).2.2.1 one_d declaredInput _
      (Or.inr ⟨by decide, by rfl⟩)⟩,
   (use_after_free_forwarded sampleEnv sampleCore 4096).2.2.2.2 freedWorld (by decide)⟩

/-- C9, as stated, fails: an update need not reach the core.  On the sample
core for the header extended by `speed` and `Distance`, an update on the live
handle 4096 with a host object that carries exactly the 19 declared fields
finds no field `speed` and returns with the core's log unchanged; and against
`pictorus.h` itself an update on the live handle 4096 does not translate and
the core's log stays as `appInterfaceNew` left it. -/
theorem update_without_core_call :
    sampleWorld.engines (jlongToPtr sampleTarget (ptrToJlong sampleTarget 4096)) = some 0 ∧
    (Java_in_matter_pictorusdemo1_SimulationModelAppInterface_appInterfaceUpdate
        sampleEnv sampleCore (ptrToJlong sampleTarget 4096) one_d declaredInput
      sampleWorld).1 = .error (.nullFieldID "speed" "D") ∧
    (Java_in_matter_pictorusdemo1_SimulationModelAppInterface_appInterfaceUpdate
        sampleEnv sampleCore (ptrToJlong sampleTarget 4096) one_d declaredInput
      sampleWorld).2.calls = sampleWorld.calls ∧
    sampleWorld.calls = [.new 4096, .new 8192] ∧
    sampleWorldRepo.engines (jlongToPtr sampleTarget (ptrToJlong sampleTarget 4096)) = some 0 ∧
    (Java_in_matter_pictorusdemo1_SimulationModelAppInterface_appInterfaceUpdate
        sampleEnv sampleCoreRepo (ptrToJlong sampleTarget 4096) one_d sampleInput
      sampleWorldRepo).1 = .error (.noMember "AppDataInput" "speed") ∧
    (Java_in_matter_pictorusdemo1_SimulationModelAppInterface_appInterfaceUpdate
        sampleEnv sampleCoreRepo (ptrToJlong sampleTarget 4096) one_d sampleInput
      sampleWorldRepo).2.calls = [.new 4096] := by
  refine ⟨by decide, by decide, by decide, by decide, by decide, by decide, by decide⟩

/-- C9, amended.  Handle round trip and forwarding.  The cast of an engine
pointer to `jlong` yields a signed 64-bit value and the cast back yields the
pointer; `appInterfaceNew` returns the pointer `app_interface_new` returned,
cast to `jlong`; `appInterfaceFree` on that handle is `app_interface_free` on
the pointer, called once; and `appInterfaceUpdate` on that handle, when the
function translates against the header and the input object marshals, calls
`app_interface_update` once, on the pointer and with the time it was given,
and on a live engine returns what `marshalOutput` makes of the record the
engine returned. -/
theorem handle_roundtrip_forwarding (env : JNIEnv) (core : Core t hdr σ) (p : Ptr t) :
    jlongToPtr t (ptrToJlong t p) = p ∧
    (-(2 ^ 63 : Int) ≤ (ptrToJlong t p : Int) ∧ (ptrToJlong t p : Int) < 2 ^ 63) ∧
    (∀ w : World t σ,
      Java_in_matter_pictorusdemo1_SimulationModelAppInterface_appInterfaceNew core w =
        (ptrToJlong t (app_interface_new core w).1, (app_interface_new core w).2)) ∧
    (∀ w : World t σ,
      Java_in_matter_pictorusdemo1_SimulationModelAppInterface_appInterfaceFree
          (ptrToJlong t p) w = app_interface_free p w ∧
      (Java_in_matter_pictorusdemo1_SimulationModelAppInterface_appInterfaceFree
          (ptrToJlong t p) w).2.calls = w.calls ++ [.free p.val]) ∧
    (∀ (w : World t σ) (appTimeS : jdouble) (inputData : jobject)
        (cInput : StructVal hdr.AppDataInput),
      translationCheck hdr = .ok () → marshalInput hdr inputData = .ok cInput →
      (Java_in_matter_pictorusdemo1_SimulationModelAppInterface_appInterfaceUpdate
          env core (ptrToJlong t p) appTimeS inputData w).2 =
        (app_interface_update core p appTimeS cInput w).2 ∧
      (Java_in_matter_pictorusdemo1_SimulationModelAppInterface_appInterfaceUpdate
          env core (ptrToJlong t p) appTimeS inputData w).2.calls =
        w.calls ++ [.update p.val appTimeS cInput.vals] ∧
      (∀ s, w.engines p = some s →
        Java_in_matter_pictorusdemo1_SimulationModelAppInterface_appInterfaceUpdate
            env core (ptrToJlong t p) appTimeS inputData w =
          (marshalOutput hdr env (core.update s appTimeS cInput).2,
           ⟨Function.update w.engines p (some (core.update s appTimeS cInput).1),
            w.calls ++ [.update p.val appTimeS cInput.vals]⟩))) := by
  refine ⟨jlongToPtr_ptrToJlong t p, ptrToJlong_range t p, fun w => rfl, fun w => ?_, ?_⟩
  · have h1 : Java_in_matter_pictorusdemo1_SimulationModelAppInterface_appInterfaceFree
      (ptrToJlong t p) w = app_interface_free p w := by
      unfold Java_in_matter_pictorusdemo1_SimulationModelAppInterface_appInterfaceFree
      rw [jlongToPtr_ptrToJlong]
    refine ⟨h1, ?_⟩
    rw [h1]
    unfold app_interface_free
    cases w.engines p <;> rfl
  · intro w appTimeS inputData cInput hT hM
    have hp := jlongToPtr_ptrToJlong t p
    cases hs : w.engines p with
    | none =>
      have h := appInterfaceUpdate_dead env core (ptrToJlong t p) appTimeS inputData w cInput
        hT hM (by rw [hp]; exact hs)
      rw [hp] at h
      rw [h]
      refine ⟨?_, rfl, ?_⟩
      · unfold app_interface_update
        simp only [hs]
      · intro s hs'
        exact absurd hs' (by simp)
    | some s0 =>
      have h := appInterfaceUpdate_live env core (ptrToJlong t p) appTimeS inputData w cInput s0
        hT hM (by rw [hp]; exact hs)
      rw [hp] at h
      rw [h]
      refine ⟨?_, rfl, ?_⟩
      · unfold app_interface_update
        simp only [hs]
      · intro s hs'
        simp only [Option.some.injEq] at hs'
        subst hs'
        rfl

/-- C9 amended, on the sample core: an update on the handle of the engine at
4096. -/
theorem handle_roundtrip_forwarding_witness :
    translationCheck pictorus_h_ext = .ok () ∧
    marshalInput pictorus_h_ext sampleInput = .ok sampleRecord ∧
    sampleWorld.engines 4096 = some 0 ∧
    Java_in_matter_pictorusdemo1_SimulationModelAppInterface_appInterfaceUpdate
        sampleEnv sampleCore (ptrToJlong sampleTarget 4096) one_d sampleInput
        sampleWorld =
      (marshalOutput pictorus_h_ext sampleEnv (sampleCore.update 0 one_d sampleRecord).2,
       ⟨Function.update sampleWorld.engines 4096
          (some (sampleCore.update 0 one_d sampleRecord).1),
        sampleWorld.calls ++ [.update 4096 one_d sampleRecord.vals]⟩) :=
  ⟨by decide, by rfl, by decide,
   ((handle_roundtrip_forwarding sampleEnv sampleCore 4096).2.2.2.2 sampleWorld one_d sampleInput
     sampleRecord (by decide) (by rfl)).2.2 0 (by decide)⟩

end Boundary

end PictorusDemo
